import Mathlib

/-!
Verification of the variable-construction and trajectory-extraction core of
`motion_optimizer_facade.cc` (xpp/towr motion optimizer facade).

Times and values are exact rationals (`ℚ`): the C++ code computes in `double`,
but every claim checked here concerns arithmetic whose outcome is identical in
exact and in IEEE double arithmetic (the `1e-5` sampling tolerance dominates
the accumulated rounding of `t += dt` at the inputs considered).

Collaborator classes whose sources are not part of the repository snapshot
(`ContactSchedule`, the spline/`NodeValues` hierarchy, `variable_names.h`,
the NLP iterate store, the angular-state converter) are modelled from the
specification; each such definition carries a doc comment saying so.
-/

namespace Towr

/-- A 3-component vector of rationals (Eigen `Vector3d` in the source). -/
structure Vec3 where
  x : ℚ
  y : ℚ
  z : ℚ
deriving DecidableEq

def Vec3.zero : Vec3 := ⟨0, 0, 0⟩

def Vec3.add (u v : Vec3) : Vec3 := ⟨u.x + v.x, u.y + v.y, u.z + v.z⟩

def Vec3.sub (u v : Vec3) : Vec3 := ⟨u.x - v.x, u.y - v.y, u.z - v.z⟩

def Vec3.smul (c : ℚ) (v : Vec3) : Vec3 := ⟨c * v.x, c * v.y, c * v.z⟩

/-- Position / velocity / acceleration triple (`StateLin3d` in the source). -/
structure StateLin3d where
  p : Vec3
  v : Vec3
  a : Vec3
deriving DecidableEq

def StateLin3d.zero : StateLin3d := ⟨Vec3.zero, Vec3.zero, Vec3.zero⟩

/-- One contact phase of a limb: a duration and a stance/swing flag
(data model of the spec, §3). -/
structure Phase where
  duration : ℚ
  inContact : Bool
deriving DecidableEq

/-- Modelled from the spec: `contact_schedule.h` is not in the snapshot.
A per-limb contact schedule owns an ordered sequence of phases (§4.1). -/
structure ContactSchedule where
  phases : List Phase
deriving DecidableEq

/-- Sum of the current phase durations (§4.1). -/
def ContactSchedule.GetTotalTime (cs : ContactSchedule) : ℚ :=
  (cs.phases.map Phase.duration).sum

/-- Current phase durations, in order (§4.1). -/
def ContactSchedule.GetTimePerPhase (cs : ContactSchedule) : List ℚ :=
  cs.phases.map Phase.duration

/-- The stance/swing flags of the phases, in order. -/
def ContactSchedule.GetContactSequence (cs : ContactSchedule) : List Bool :=
  cs.phases.map Phase.inContact

/-- Walk the phases accumulating durations; a boundary instant belongs to the
later phase (§4.1, §8), the final phase also answers for its right endpoint. -/
def isInContactAux : List Phase → ℚ → Bool
  | [], _ => false
  | [ph], _ => ph.inContact
  | ph :: rest, t => if t < ph.duration then ph.inContact else isInContactAux rest (t - ph.duration)

/-- Modelled from the spec: `IsInContact(t)` is clamped for `t` outside
`[0, GetTotalTime()]` (§4.1) and otherwise returns the flag of the phase whose
cumulative interval contains `t`, ties resolving to the later phase. -/
def ContactSchedule.IsInContact (cs : ContactSchedule) (t : ℚ) : Bool :=
  isInContactAux cs.phases (max 0 (min t cs.GetTotalTime))

/-- Polynomial evaluation in Horner form; coefficients in ascending powers. -/
def evalPoly : List Vec3 → ℚ → Vec3
  | [], _ => Vec3.zero
  | c :: cs, t => c.add (Vec3.smul t (evalPoly cs t))

/-- Formal derivative of a coefficient list. -/
def derivPoly (cs : List Vec3) : List Vec3 :=
  (cs.drop 1).enum.map (fun ci => Vec3.smul ((ci.1 : ℚ) + 1) ci.2)

/-- One polynomial segment of a spline: a duration and coefficients (§3). -/
structure Segment where
  duration : ℚ
  poly : List Vec3
deriving DecidableEq

/-- Evaluate a segment's polynomial and its first two derivatives at a local
time offset (§4.2). -/
def Segment.eval (seg : Segment) (t : ℚ) : StateLin3d :=
  ⟨evalPoly seg.poly t, evalPoly (derivPoly seg.poly) t,
   evalPoly (derivPoly (derivPoly seg.poly)) t⟩

/-- Modelled from the spec: the spline sources (`spline.h`, `node_values.h`,
`phase_nodes.h`) are not in the snapshot.  A spline is an ordered sequence of
contiguous polynomial segments covering `[0, T]` (§3, §4.2). -/
structure Spline where
  segments : List Segment
deriving DecidableEq

def Spline.totalTime (s : Spline) : ℚ :=
  (s.segments.map Segment.duration).sum

/-- Locate the active segment by accumulating segment durations (same tie rule
as the contact schedule) and evaluate it at the local offset (§4.2). -/
def getPointAux : List Segment → ℚ → StateLin3d
  | [], _ => StateLin3d.zero
  | [seg], t => seg.eval t
  | seg :: rest, t => if t < seg.duration then seg.eval t else getPointAux rest (t - seg.duration)

/-- Modelled from the spec: sampling at a `t` fractionally beyond the total
time evaluates at the last valid instant (§7), i.e. the query time is clamped
into `[0, T]` before segment lookup. -/
def Spline.GetPoint (s : Spline) (t : ℚ) : StateLin3d :=
  getPointAux s.segments (max 0 (min t s.totalTime))

/-- Modelled from the spec: the Euler-angle to rotational-state conversion is
an external pure function (§1, §6); we record which raw sampled state it was
given, which is all the claims need of it. -/
structure StateAng where
  raw : StateLin3d
deriving DecidableEq

/-- The external angle-conversion collaborator (`AngularStateConverter`). -/
def AngularStateConverter.GetState (s : StateLin3d) : StateAng := ⟨s⟩

/-- Modelled from the spec: `variable_names.h` is not in the snapshot.  The
fixed naming scheme has one identifier per limb's schedule, per-limb xy- and
z-motion, per-limb force, and one per base axis-group (§6); identifiers are
unique within a composite (§3), which the disjoint constructors give for free.
The coefficient base strategy additionally exposes per-segment blocks (§8). -/
inductive VarId where
  | base_linear
  | base_angular
  | base_linear_poly (i : ℕ)
  | base_angular_poly (i : ℕ)
  | eeSchedule (ee : ℕ)
  | eeMotionXY (ee : ℕ)
  | eeMotionZ (ee : ℕ)
  | eeForce (ee : ℕ)
deriving DecidableEq

/-- A variable block stored in the composite: either a contact schedule or a
spline-like block (§3: each block exposes values plus either `Evaluate(t)` or
`IsInContact(t)`). -/
inductive Component where
  | schedule (cs : ContactSchedule)
  | spline (s : Spline)
deriving DecidableEq

/-- The free values a block contributes when marked optimizable: phase
durations for a schedule (§4.1), the flattened coefficients for a spline. -/
def Component.values : Component → List ℚ
  | .schedule cs => cs.GetTimePerPhase
  | .spline s => s.segments.flatMap (fun seg => seg.poly.flatMap (fun c => [c.x, c.y, c.z]))

/-- `Composite` (the source's `Composite` of `nlp_variables`): an ordered list
of (identifier, block, is-variable flag) entries (§4.4). -/
structure Composite where
  components : List (VarId × Component × Bool)
deriving DecidableEq

/-- Lookup by identifier: first entry with a matching id (§4.4). -/
def Composite.find (c : Composite) (id : VarId) : Option Component :=
  (c.components.find? (fun e => e.1 == id)).map (fun e => e.2.1)

/-- `GetComponent<ContactSchedule>`: lookup plus capability check (§4.4). -/
def Composite.GetSchedule (c : Composite) (id : VarId) : Option ContactSchedule :=
  match c.find id with
  | some (.schedule cs) => some cs
  | _ => none

/-- `GetComponent<Spline>`: lookup plus capability check (§4.4). -/
def Composite.GetSpline (c : Composite) (id : VarId) : Option Spline :=
  match c.find id with
  | some (.spline s) => some s
  | _ => none

/-- The flattened free-value vector over all variable blocks, in insertion
order (§4.4): blocks added with `is_variable = false` contribute nothing. -/
def Composite.freeValues (c : Composite) : List ℚ :=
  c.components.flatMap (fun e => if e.2.2 then e.2.1.values else [])

/-- The sampling tolerance `1e-5` of `BuildTrajectory` (source line 292). -/
def tol : ℚ := 1/100000

/-- Per-limb part of a sampled robot state. -/
structure EEState where
  contact : Bool
  motion : StateLin3d
  force : Vec3
deriving DecidableEq

def EEState.default : EEState := ⟨false, StateLin3d.zero, Vec3.zero⟩

/-- `RobotStateCartesian`: a timestamped snapshot (source lines 294-306). -/
structure RobotStateCartesian where
  t_global : ℚ
  base_lin : StateLin3d
  base_ang : StateAng
  ee : List EEState
deriving DecidableEq

/-- The body of the sampling loop of `BuildTrajectory` (source lines 294-306):
base linear and angular states from the base splines, the angular one through
the converter; per limb the contact flag, the motion point of the xy-motion
block, and the position part of the force block's point.  `none` models the
fatal lookup error of `GetComponent` (§7). -/
def stateAt (eeCount : ℕ) (vars : Composite) (t : ℚ) : Option RobotStateCartesian := do
  let lin ← vars.GetSpline .base_linear
  let ang ← vars.GetSpline .base_angular
  let ees ← (List.range eeCount).mapM (fun e => do
    let sched ← vars.GetSchedule (.eeSchedule e)
    let mot ← vars.GetSpline (.eeMotionXY e)
    let frc ← vars.GetSpline (.eeForce e)
    pure (⟨sched.IsInContact t, mot.GetPoint t, (frc.GetPoint t).p⟩ : EEState))
  pure { t_global := t
         base_lin := lin.GetPoint t
         base_ang := AngularStateConverter.GetState (ang.GetPoint t)
         ee := ees }

/-- The sampling loop of `BuildTrajectory` (source lines 290-308):
`t = 0; while (t <= T + 1e-5) { push state(t); t += dt }`.  The C++ loop does
not terminate for `dt ≤ 0`; the guard `0 < dt` makes the function total, and
every claim is stated for positive `dt`. -/
def buildLoop (eeCount : ℕ) (vars : Composite) (dt Teps t : ℚ) :
    Option (List RobotStateCartesian) :=
  if h : t ≤ Teps ∧ 0 < dt then do
    let s ← stateAt eeCount vars t
    let rest ← buildLoop eeCount vars dt Teps (t + dt)
    pure (s :: rest)
  else
    some []
termination_by (Int.floor ((Teps - t) / dt + 1)).toNat
decreasing_by
  obtain ⟨h1, h2⟩ := h
  have hne : dt ≠ 0 := ne_of_gt h2
  have hx : (Teps - (t + dt)) / dt + 1 = (Teps - t) / dt := by
    field_simp
    ring
  rw [hx]
  have hx0 : 0 ≤ (Teps - t) / dt := div_nonneg (by linarith) h2.le
  have hfl : Int.floor ((Teps - t) / dt + (1 : ℚ)) = Int.floor ((Teps - t) / dt) + 1 := by
    exact_mod_cast Int.floor_add_one ((Teps - t) / dt)
  have hge : 0 ≤ Int.floor ((Teps - t) / dt) := Int.floor_nonneg.mpr hx0
  rw [hfl]
  omega

/-- `MotionOptimizerFacade::BuildTrajectory` (source lines 285-311): the total
time `T` is the reference limb `E0`'s schedule total time, then the loop
samples from `t = 0`. -/
def buildTrajectory (eeCount : ℕ) (vars : Composite) (dt : ℚ) :
    Option (List RobotStateCartesian) := do
  let cs ← vars.GetSchedule (.eeSchedule 0)
  buildLoop eeCount vars dt (cs.GetTotalTime + tol) 0

def rsDefault : RobotStateCartesian := ⟨0, StateLin3d.zero, ⟨StateLin3d.zero⟩, []⟩

/-! ## Helper lemmas -/

lemma mapM_option_forall₂ {α β : Type} (f : α → Option β) :
    ∀ (xs : List α) (l : List β), xs.mapM f = some l →
      List.Forall₂ (fun a b => f a = some b) xs l := by
  intro xs
  induction xs with
  | nil =>
    intro l h
    rw [List.mapM_nil] at h
    cases h
    exact List.Forall₂.nil
  | cons a as ih =>
    intro l h
    rw [List.mapM_cons] at h
    cases hfa : f a with
    | none => rw [hfa] at h; simp at h
    | some b =>
      rw [hfa] at h
      cases hrest : as.mapM f with
      | none => rw [hrest] at h; simp at h
      | some bs =>
        rw [hrest] at h
        simp only [Option.bind_eq_bind, Option.some_bind, Option.pure_def,
          Option.some.injEq] at h
        cases h
        exact List.Forall₂.cons hfa (ih bs hrest)

lemma mapM_range_spec {β : Type} (d : β) (f : ℕ → Option β) (n : ℕ) (l : List β)
    (h : (List.range n).mapM f = some l) :
    l.length = n ∧ ∀ e, e < n → f e = some (l.getD e d) := by
  have h2 := mapM_option_forall₂ f (List.range n) l h
  have hlen := List.Forall₂.length_eq h2
  rw [List.length_range] at hlen
  refine ⟨hlen.symm, ?_⟩
  intro e he
  have hget := (List.forall₂_iff_get.mp h2).2 e (by simpa) (by omega)
  simp only [List.get_eq_getElem, List.getElem_range] at hget
  rw [List.getD_eq_getElem l d (show e < l.length by omega)]
  exact hget

/-- Full characterization of a successfully sampled state: which composite
blocks its fields were read from. -/
lemma stateAt_spec (n : ℕ) (v : Composite) (t : ℚ) (st : RobotStateCartesian)
    (h : stateAt n v t = some st) :
    st.t_global = t ∧
    (∃ lin, v.GetSpline .base_linear = some lin ∧ st.base_lin = lin.GetPoint t) ∧
    (∃ ang, v.GetSpline .base_angular = some ang ∧
       st.base_ang = AngularStateConverter.GetState (ang.GetPoint t)) ∧
    st.ee.length = n ∧
    (∀ e, e < n → ∃ sched mot frc,
      v.GetSchedule (.eeSchedule e) = some sched ∧
      v.GetSpline (.eeMotionXY e) = some mot ∧
      v.GetSpline (.eeForce e) = some frc ∧
      st.ee.getD e EEState.default
        = ⟨sched.IsInContact t, mot.GetPoint t, (frc.GetPoint t).p⟩) := by
  unfold stateAt at h
  cases hlin : v.GetSpline VarId.base_linear with
  | none => rw [hlin] at h; simp at h
  | some lin =>
  rw [hlin] at h
  cases hang : v.GetSpline VarId.base_angular with
  | none => rw [hang] at h; simp at h
  | some ang =>
  rw [hang] at h
  cases hees : (List.range n).mapM (fun e => do
      let sched ← v.GetSchedule (.eeSchedule e)
      let mot ← v.GetSpline (.eeMotionXY e)
      let frc ← v.GetSpline (.eeForce e)
      pure (⟨sched.IsInContact t, mot.GetPoint t, (frc.GetPoint t).p⟩ : EEState)) with
  | none => rw [hees] at h; simp at h
  | some ees =>
  rw [hees] at h
  simp only [Option.bind_eq_bind, Option.some_bind, Option.pure_def,
    Option.some.injEq] at h
  cases h
  obtain ⟨hlen, hmem⟩ := mapM_range_spec EEState.default _ n ees hees
  refine ⟨rfl, ⟨lin, rfl, rfl⟩, ⟨ang, rfl, rfl⟩, hlen, ?_⟩
  intro e he
  have := hmem e he
  cases hsched : v.GetSchedule (VarId.eeSchedule e) with
  | none => rw [hsched] at this; simp at this
  | some sched =>
  rw [hsched] at this
  cases hmot : v.GetSpline (VarId.eeMotionXY e) with
  | none => rw [hmot] at this; simp at this
  | some mot =>
  rw [hmot] at this
  cases hfrc : v.GetSpline (VarId.eeForce e) with
  | none => rw [hfrc] at this; simp at this
  | some frc =>
  rw [hfrc] at this
  simp only [Option.bind_eq_bind, Option.some_bind, Option.pure_def,
    Option.some.injEq] at this
  exact ⟨sched, mot, frc, rfl, rfl, rfl, this.symm⟩

lemma stateAt_t_global (n : ℕ) (v : Composite) (t : ℚ) (st : RobotStateCartesian)
    (h : stateAt n v t = some st) : st.t_global = t :=
  (stateAt_spec n v t st h).1

/-- What `buildLoop_spec` establishes about the loop started at `t`: the
timestamps are the arithmetic progression starting at `t`, a multiple
`t + k·dt` is reached exactly when it is at most `Teps`, and the `i`-th
produced state is the sample at `t + i·dt`. -/
def LoopSpec (eeCount : ℕ) (vars : Composite) (dt Teps t : ℚ) : Prop :=
  ∀ l, buildLoop eeCount vars dt Teps t = some l →
    (l.map RobotStateCartesian.t_global
        = (List.range l.length).map (fun k : ℕ => t + (k : ℚ) * dt))
    ∧ (∀ k : ℕ, (t + (k : ℚ) * dt ≤ Teps ↔ k < l.length))
    ∧ (∀ i : ℕ, i < l.length →
        stateAt eeCount vars (t + (i : ℚ) * dt) = some (l.getD i rsDefault))

lemma buildLoop_spec (eeCount : ℕ) (vars : Composite) (dt Teps : ℚ)
    (hdt : 0 < dt) : ∀ t, LoopSpec eeCount vars dt Teps t := by
  refine buildLoop.induct eeCount vars dt Teps
    (motive := LoopSpec eeCount vars dt Teps) ?_ ?_
  · intro t h ih
    intro l hl
    unfold buildLoop at hl
    rw [dif_pos h] at hl
    cases hst : stateAt eeCount vars t with
    | none => rw [hst] at hl; simp at hl
    | some s =>
    rw [hst] at hl
    cases hrest : buildLoop eeCount vars dt Teps (t + dt) with
    | none => rw [hrest] at hl; simp at hl
    | some rest =>
    rw [hrest] at hl
    simp only [Option.bind_eq_bind, Option.some_bind, Option.pure_def,
      Option.some.injEq] at hl
    cases hl
    obtain ⟨ihmap, ihiff, ihstates⟩ := ih rest hrest
    have hshift : ((fun k : ℕ => t + (k : ℚ) * dt) ∘ Nat.succ)
        = fun k : ℕ => (t + dt) + (k : ℚ) * dt := by
      funext k
      simp only [Function.comp_apply]
      push_cast
      ring
    refine ⟨?_, ?_, ?_⟩
    · simp only [List.map_cons, List.length_cons, List.range_succ_eq_map,
        List.map_map, hshift, ihmap]
      rw [stateAt_t_global eeCount vars t s hst]
      norm_num
    · intro k
      cases k with
      | zero =>
        simp only [Nat.cast_zero, zero_mul, add_zero, List.length_cons]
        exact iff_of_true h.1 (Nat.succ_pos _)
      | succ k =>
        have harith : t + ((k + 1 : ℕ) : ℚ) * dt = (t + dt) + (k : ℚ) * dt := by
          push_cast
          ring
        rw [harith]
        rw [ihiff k]
        simp only [List.length_cons]
        omega
    · intro i hi
      cases i with
      | zero =>
        simpa using hst
      | succ i =>
        have harith : t + ((i + 1 : ℕ) : ℚ) * dt = (t + dt) + (i : ℚ) * dt := by
          push_cast
          ring
        rw [harith]
        have := ihstates i (by simpa using hi)
        simpa using this
  · intro t h l hl
    unfold buildLoop at hl
    rw [dif_neg h] at hl
    cases hl
    refine ⟨rfl, ?_, ?_⟩
    · intro k
      simp only [List.length_nil, Nat.not_lt_zero, iff_false]
      intro habs
      have hk : (0 : ℚ) ≤ (k : ℚ) * dt := mul_nonneg (Nat.cast_nonneg k) hdt.le
      exact h ⟨by linarith, hdt⟩
    · intro i hi
      simp at hi

/-- If sampling succeeds at every time, the loop never fails. -/
lemma buildLoop_isSome (eeCount : ℕ) (vars : Composite) (dt Teps : ℚ)
    (hst : ∀ q : ℚ, (stateAt eeCount vars q).isSome) :
    ∀ t, (buildLoop eeCount vars dt Teps t).isSome := by
  refine buildLoop.induct eeCount vars dt Teps
    (motive := fun t => (buildLoop eeCount vars dt Teps t).isSome = true) ?_ ?_
  · intro t h ih
    unfold buildLoop
    rw [dif_pos h]
    obtain ⟨s, hs⟩ := Option.isSome_iff_exists.mp (hst t)
    obtain ⟨rest, hrest⟩ := Option.isSome_iff_exists.mp ih
    rw [hs, hrest]
    simp
  · intro t h
    unfold buildLoop
    rw [dif_neg h]
    simp

/-- Spline sampling beyond the total time evaluates at the last valid
instant (the clamping of `GetPoint`). -/
lemma Spline.GetPoint_clamp (s : Spline) (t : ℚ) (h : s.totalTime ≤ t) :
    s.GetPoint t = s.GetPoint s.totalTime := by
  unfold Spline.GetPoint
  rw [min_eq_right h, min_self]

/-- Contact queries beyond the total time answer for the last valid
instant (the clamping of `IsInContact`). -/
lemma ContactSchedule.IsInContact_clamp (cs : ContactSchedule) (t : ℚ)
    (h : cs.GetTotalTime ≤ t) :
    cs.IsInContact t = cs.IsInContact cs.GetTotalTime := by
  unfold ContactSchedule.IsInContact
  rw [min_eq_right h, min_self]

/-! ## Concrete instances used by witnesses and counterexamples -/

/-- A constant-zero one-segment spline of total time `T`. -/
def constSpline (T : ℚ) : Spline := ⟨[⟨T, [Vec3.zero]⟩]⟩

/-- A one-phase stance-only contact schedule of total time `T`. -/
def oneStanceSchedule (T : ℚ) : ContactSchedule := ⟨[⟨T, true⟩]⟩

/-- A fully assigned single-limb composite whose reference schedule has total
time `T`; every block `BuildTrajectory` reads is present. -/
def sampleComposite (T : ℚ) : Composite :=
  ⟨[(.base_linear, .spline (constSpline T), true),
    (.base_angular, .spline (constSpline T), true),
    (.eeSchedule 0, .schedule (oneStanceSchedule T), false),
    (.eeMotionXY 0, .spline (constSpline T), true),
    (.eeMotionZ 0, .spline (constSpline T), true),
    (.eeForce 0, .spline (constSpline T), true)]⟩

lemma oneStanceSchedule_total (T : ℚ) : (oneStanceSchedule T).GetTotalTime = T := by
  simp [oneStanceSchedule, ContactSchedule.GetTotalTime]

lemma sampleComposite_getSchedule (T : ℚ) :
    (sampleComposite T).GetSchedule (.eeSchedule 0) = some (oneStanceSchedule T) := rfl

/-- The state the sample composite yields at any time `q`. -/
def sampleState (T q : ℚ) : RobotStateCartesian :=
  ⟨q, (constSpline T).GetPoint q, ⟨(constSpline T).GetPoint q⟩,
   [⟨(oneStanceSchedule T).IsInContact q, (constSpline T).GetPoint q,
     ((constSpline T).GetPoint q).p⟩]⟩

lemma sampleComposite_stateAt (T q : ℚ) :
    stateAt 1 (sampleComposite T) q = some (sampleState T q) := rfl

lemma sampleComposite_stateAt_isSome (T q : ℚ) :
    (stateAt 1 (sampleComposite T) q).isSome := by
  rw [sampleComposite_stateAt]
  rfl

/-- The trajectory of the sample composite exists and its timestamps obey the
loop's inclusion rule with `T` the schedule's total time. -/
lemma sampleComposite_traj (T dt : ℚ) (hdt : 0 < dt) :
    ∃ tr, buildTrajectory 1 (sampleComposite T) dt = some tr ∧
      tr.map RobotStateCartesian.t_global
        = (List.range tr.length).map (fun k : ℕ => (k : ℚ) * dt) ∧
      ∀ k : ℕ, ((k : ℚ) * dt ≤ T + tol ↔ k < tr.length) := by
  have hsome : (buildLoop 1 (sampleComposite T) dt (T + tol) 0).isSome :=
    buildLoop_isSome 1 (sampleComposite T) dt (T + tol)
      (sampleComposite_stateAt_isSome T) 0
  obtain ⟨tr, htr⟩ := Option.isSome_iff_exists.mp hsome
  have hbt : buildTrajectory 1 (sampleComposite T) dt = some tr := by
    unfold buildTrajectory
    rw [sampleComposite_getSchedule]
    simpa [oneStanceSchedule_total] using htr
  obtain ⟨hmap, hiff, _⟩ :=
    buildLoop_spec 1 (sampleComposite T) dt (T + tol) hdt 0 tr htr
  refine ⟨tr, hbt, ?_, ?_⟩
  · simpa using hmap
  · intro k
    simpa using hiff k

/-! ## Claim theorems -/

/-- C1: for every assigned composite and every `dt > 0`, `BuildTrajectory`
produces states exactly at the sample times `0, dt, 2·dt, …`, a sample time
`k·dt` being included exactly when `k·dt ≤ T + 1e-5` where `T` is the total
time of limb `E0`'s contact schedule; in particular `T = 1, dt = 1/10` gives
exactly 11 states with timestamps `0` through `1` (see the witness). -/
theorem C1_sampling_rule (eeCount : ℕ) (vars : Composite) (dt : ℚ)
    (cs : ContactSchedule) (tr : List RobotStateCartesian) (hdt : 0 < dt)
    (hcs : vars.GetSchedule (.eeSchedule 0) = some cs)
    (htr : buildTrajectory eeCount vars dt = some tr) :
    tr.map RobotStateCartesian.t_global
      = (List.range tr.length).map (fun k : ℕ => (k : ℚ) * dt)
    ∧ ∀ k : ℕ, ((k : ℚ) * dt ≤ cs.GetTotalTime + tol ↔ k < tr.length) := by
  unfold buildTrajectory at htr
  rw [hcs] at htr
  simp only [Option.bind_eq_bind, Option.some_bind] at htr
  obtain ⟨hmap, hiff, _⟩ :=
    buildLoop_spec eeCount vars dt (cs.GetTotalTime + tol) hdt 0 tr htr
  constructor
  · simpa using hmap
  · intro k
    simpa using hiff k

/-- Witness for C1 at `T = 1`, `dt = 1/10`: hypotheses hold for the concrete
sample composite, and exactly 11 states result, with timestamps `0 … 1`. -/
theorem C1_sampling_rule_witness :
    0 < (1/10 : ℚ) ∧
    (sampleComposite 1).GetSchedule (.eeSchedule 0) = some (oneStanceSchedule 1) ∧
    ∃ tr, buildTrajectory 1 (sampleComposite 1) (1/10) = some tr ∧
      tr.length = 11 ∧
      tr.map RobotStateCartesian.t_global
        = [0, 1/10, 2/10, 3/10, 4/10, 5/10, 6/10, 7/10, 8/10, 9/10, 1] := by
  obtain ⟨tr, hbt, _, _⟩ := sampleComposite_traj 1 (1/10) (by norm_num)
  obtain ⟨hmap, hiff⟩ := C1_sampling_rule 1 (sampleComposite 1) (1/10)
    (oneStanceSchedule 1) tr (by norm_num) (sampleComposite_getSchedule 1) hbt
  have hT : (oneStanceSchedule (1 : ℚ)).GetTotalTime = 1 := oneStanceSchedule_total 1
  rw [hT] at hiff
  have h10 : (10 : ℕ) < tr.length := by
    rw [← hiff 10]
    norm_num [tol]
  have h11 : ¬ ((11 : ℕ) < tr.length) := by
    rw [← hiff 11]
    norm_num [tol]
  have hlen : tr.length = 11 := by omega
  refine ⟨by norm_num, sampleComposite_getSchedule 1, tr, hbt, hlen, ?_⟩
  rw [hmap, hlen]
  norm_num [List.range_succ]

/-- C2 counterexample: for the schedule with total time `T = 1` and
`dt = 33/100`, `BuildTrajectory` produces 4 states, not the claimed
`⌈1/0.33⌉ + 1 = 5`: the sample times are `0, 0.33, 0.66, 0.99` and the next
one, `1.32`, exceeds `1 + 1e-5`. -/
theorem C2_state_count_counterexample :
    (oneStanceSchedule (1 : ℚ)).GetTotalTime = 1 ∧
    (buildTrajectory 1 (sampleComposite 1) (33/100)).map List.length = some 4 ∧
    (buildTrajectory 1 (sampleComposite 1) (33/100)).map List.length ≠ some 5 := by
  obtain ⟨tr, hbt, _, hiff⟩ := sampleComposite_traj 1 (33/100) (by norm_num)
  have h3 : (3 : ℕ) < tr.length := by
    rw [← hiff 3]
    norm_num [tol]
  have h4 : ¬ ((4 : ℕ) < tr.length) := by
    rw [← hiff 4]
    norm_num [tol]
  have hlen : tr.length = 4 := by omega
  rw [hbt]
  exact ⟨oneStanceSchedule_total 1, by simp [hlen], by simp [hlen]⟩

/-- C2 amended: for `T = 1` and `dt = 33/100` the trajectory has exactly
`⌊(T + 1e-5)/dt⌋ + 1 = 4` states, at times `0, 0.33, 0.66, 0.99`. -/
theorem C2_state_count_amended :
    ∃ tr, buildTrajectory 1 (sampleComposite 1) (33/100) = some tr ∧
      tr.length = 4 ∧
      tr.map RobotStateCartesian.t_global = [0, 33/100, 66/100, 99/100] ∧
      (Int.floor (((1 : ℚ) + tol) / (33/100))).toNat + 1 = 4 := by
  obtain ⟨tr, hbt, hmap, hiff⟩ := sampleComposite_traj 1 (33/100) (by norm_num)
  have h3 : (3 : ℕ) < tr.length := by
    rw [← hiff 3]
    norm_num [tol]
  have h4 : ¬ ((4 : ℕ) < tr.length) := by
    rw [← hiff 4]
    norm_num [tol]
  have hlen : tr.length = 4 := by omega
  refine ⟨tr, hbt, hlen, ?_, ?_⟩
  · rw [hmap, hlen]
    norm_num [List.range_succ]
  · have : Int.floor (((1 : ℚ) + tol) / (33/100)) = 3 := by
      refine Int.floor_eq_iff.mpr ⟨?_, ?_⟩ <;> norm_num [tol]
    rw [this]
    rfl

/-- C3 counterexample: with `T = 99999/100000` and `dt = 1/2` the final
sample time is `1`, which exceeds `T` by exactly the tolerance; the state is
produced, but its timestamp is the overhanging `1`, not the claimed `T`. -/
theorem C3_final_sample_counterexample :
    (oneStanceSchedule ((99999 : ℚ)/100000)).GetTotalTime = 99999/100000 ∧
    (buildTrajectory 1 (sampleComposite (99999/100000)) (1/2)).map
        (fun l => l.map RobotStateCartesian.t_global) = some [0, 1/2, 1] ∧
    ((99999 : ℚ)/100000) < 1 := by
  obtain ⟨tr, hbt, hmap, hiff⟩ :=
    sampleComposite_traj (99999/100000) (1/2) (by norm_num)
  have h2 : (2 : ℕ) < tr.length := by
    rw [← hiff 2]
    norm_num [tol]
  have h3 : ¬ ((3 : ℕ) < tr.length) := by
    rw [← hiff 3]
    norm_num [tol]
  have hlen : tr.length = 3 := by omega
  refine ⟨oneStanceSchedule_total _, ?_, by norm_num⟩
  rw [hbt]
  have : tr.map RobotStateCartesian.t_global = [0, 1/2, 1] := by
    rw [hmap, hlen]
    norm_num [List.range_succ]
  rw [Option.map_some', this]

/-- C3 amended: a final sample time `k·dt` with `T < k·dt ≤ T + 1e-5` is not
dropped: a state is produced for it, its timestamp is the overhanging `k·dt`
itself (not `T`), and — the spline/contact collaborators clamping queries past
their total time — every block whose total time is `T` is effectively
evaluated at the last valid instant `T`. -/
theorem C3_final_sample_amended (eeCount : ℕ) (vars : Composite) (dt : ℚ)
    (cs : ContactSchedule) (tr : List RobotStateCartesian) (k : ℕ)
    (hdt : 0 < dt) (hcs : vars.GetSchedule (.eeSchedule 0) = some cs)
    (htr : buildTrajectory eeCount vars dt = some tr)
    (hover : cs.GetTotalTime < (k : ℚ) * dt)
    (hin : (k : ℚ) * dt ≤ cs.GetTotalTime + tol) :
    ∃ s ∈ tr, s.t_global = (k : ℚ) * dt ∧
      (∀ sp : Spline, sp.totalTime = cs.GetTotalTime →
        sp.GetPoint s.t_global = sp.GetPoint sp.totalTime) ∧
      (∀ cs' : ContactSchedule, cs'.GetTotalTime = cs.GetTotalTime →
        cs'.IsInContact s.t_global = cs'.IsInContact cs'.GetTotalTime) := by
  unfold buildTrajectory at htr
  rw [hcs] at htr
  simp only [Option.bind_eq_bind, Option.some_bind] at htr
  obtain ⟨_, hiff, hstates⟩ :=
    buildLoop_spec eeCount vars dt (cs.GetTotalTime + tol) hdt 0 tr htr
  have hk : k < tr.length := by
    rw [← hiff k]
    simpa using hin
  have hst := hstates k hk
  rw [zero_add] at hst
  have hmem : tr.getD k rsDefault ∈ tr := by
    rw [List.getD_eq_getElem tr rsDefault hk]
    exact List.getElem_mem hk
  have hts : (tr.getD k rsDefault).t_global = (k : ℚ) * dt :=
    stateAt_t_global eeCount vars _ _ hst
  refine ⟨tr.getD k rsDefault, hmem, hts, ?_, ?_⟩
  · intro sp hsp
    rw [hts]
    exact sp.GetPoint_clamp _ (by rw [hsp]; exact hover.le)
  · intro cs' hcs'
    rw [hts]
    exact cs'.IsInContact_clamp _ (by rw [hcs']; exact hover.le)

/-- Witness for C3 amended: `T = 99999/100000`, `dt = 1/2`, `k = 2`:
the overhang is within tolerance, the state exists, with timestamp `1`. -/
theorem C3_final_sample_amended_witness :
    0 < (1/2 : ℚ) ∧
    ((oneStanceSchedule ((99999 : ℚ)/100000)).GetTotalTime < ((2 : ℕ) : ℚ) * (1/2) ∧
      ((2 : ℕ) : ℚ) * (1/2) ≤ (oneStanceSchedule ((99999 : ℚ)/100000)).GetTotalTime + tol) ∧
    ∃ tr, buildTrajectory 1 (sampleComposite (99999/100000)) (1/2) = some tr ∧
      ∃ s ∈ tr, s.t_global = ((2 : ℕ) : ℚ) * (1/2) ∧
        (∀ sp : Spline, sp.totalTime = (oneStanceSchedule ((99999 : ℚ)/100000)).GetTotalTime →
          sp.GetPoint s.t_global = sp.GetPoint sp.totalTime) := by
  obtain ⟨tr, hbt, _, _⟩ := sampleComposite_traj (99999/100000) (1/2) (by norm_num)
  have hover : (oneStanceSchedule ((99999 : ℚ)/100000)).GetTotalTime < ((2 : ℕ) : ℚ) * (1/2) := by
    rw [oneStanceSchedule_total]
    norm_num
  have hin : ((2 : ℕ) : ℚ) * (1/2) ≤ (oneStanceSchedule ((99999 : ℚ)/100000)).GetTotalTime + tol := by
    rw [oneStanceSchedule_total]
    norm_num [tol]
  obtain ⟨s, hsmem, hts, hclamp, _⟩ := C3_final_sample_amended 1
    (sampleComposite (99999/100000)) (1/2) (oneStanceSchedule (99999/100000)) tr 2
    (by norm_num) (sampleComposite_getSchedule _) hbt hover hin
  exact ⟨by norm_num, ⟨hover, hin⟩, tr, hbt, s, hsmem, hts, hclamp⟩

/-- C8: `BuildTrajectory` is a pure function of the composite contents and
`dt` — equal contents give the identical state sequence — and (for `dt > 0`)
the produced states are in strictly increasing time order.  (The embedding is
a function of an immutable composite, reflecting that the `const` C++ method
only reads through `GetComponent`.) -/
theorem C8_deterministic_monotone (eeCount : ℕ) (v₁ v₂ : Composite) (dt : ℚ)
    (tr : List RobotStateCartesian) (hdt : 0 < dt)
    (hv : v₁.components = v₂.components)
    (htr : buildTrajectory eeCount v₁ dt = some tr) :
    buildTrajectory eeCount v₂ dt = some tr ∧
    List.Chain' (· < ·) (tr.map RobotStateCartesian.t_global) := by
  have hveq : v₁ = v₂ := by
    cases v₁
    cases v₂
    cases hv
    rfl
  subst hveq
  refine ⟨htr, ?_⟩
  unfold buildTrajectory at htr
  cases hcs : v₁.GetSchedule (.eeSchedule 0) with
  | none => rw [hcs] at htr; simp at htr
  | some cs =>
  rw [hcs] at htr
  simp only [Option.bind_eq_bind, Option.some_bind] at htr
  obtain ⟨hmap, _, _⟩ :=
    buildLoop_spec eeCount v₁ dt (cs.GetTotalTime + tol) hdt 0 tr htr
  rw [hmap]
  refine List.Pairwise.chain' ?_
  refine List.Pairwise.map _ ?_ (List.pairwise_lt_range tr.length)
  intro a b hab
  have : ((a : ℚ)) < (b : ℚ) := by exact_mod_cast hab
  nlinarith

/-- Witness for C8: the sample composite at `dt = 1/10` yields a trajectory
with strictly increasing timestamps. -/
theorem C8_deterministic_monotone_witness :
    0 < (1/10 : ℚ) ∧
    ∃ tr, buildTrajectory 1 (sampleComposite 1) (1/10) = some tr ∧
      List.Chain' (· < ·) (tr.map RobotStateCartesian.t_global) := by
  obtain ⟨tr, hbt, _, _⟩ := sampleComposite_traj 1 (1/10) (by norm_num)
  obtain ⟨_, hchain⟩ := C8_deterministic_monotone 1 (sampleComposite 1)
    (sampleComposite 1) (1/10) tr (by norm_num) rfl hbt
  exact ⟨by norm_num, tr, hbt, hchain⟩

/-! ## The variable-construction side: `BuildVariables` and `SolveProblem` -/

/-- Enabled constraint kinds (§6): the embedding needs `TotalTime` (phase
timing optimized) plus representative others from the factory's repertoire. -/
inductive ConstraintName where
  | TotalTime
  | Dynamic
  | RomBox
  | Terrain
deriving DecidableEq

/-- Optimization parameters consumed from the collaborator (§6).  The base
representation and solver kinds are carried as the underlying integral value
of the C++ enum (`0 = CubicHermite, 1 = PolyCoeff`), so that the `default:`
branches of the source's switches are reachable states of the model. -/
structure OptimizationParameters where
  baseRepresentation : ℕ
  contact_timings : List (List ℚ)
  min_phase_duration : ℚ
  max_phase_duration : ℚ
  force_splines_per_stance_phase : ℕ
  basePolyDurations : List ℚ
  order_coeff_polys : ℕ
  constraints : List ConstraintName

/-- Whether a constraint kind is enabled. -/
def OptimizationParameters.ConstraintExists (p : OptimizationParameters)
    (c : ConstraintName) : Bool :=
  p.constraints.contains c

/-- The robot-model collaborator (§6): read-only data. -/
structure RobotModel where
  eeCount : ℕ
  nominalStanceInBase : List Vec3
  forceLimit : ℚ
  standingZForce : ℚ

/-- Linear and angular base state pair. -/
structure BasePose where
  lin : StateLin3d
  ang : StateLin3d
deriving DecidableEq

/-- The facade's state consumed by `BuildVariables` (source fields
`model_`, `params_`, `inital_base_`, `final_base_`, `initial_ee_W_`). -/
structure MotionOptimizerFacade where
  model : RobotModel
  params : OptimizationParameters
  inital_base : BasePose
  final_base : BasePose
  initial_ee_W : List Vec3

/-- Modelled from the spec: the `ContactSchedule` constructor takes the
per-limb initial duration list (§4.1); stance/swing flags alternate with the
first phase in contact (§3: first/last phase typically in contact). -/
def mkContactSchedule (timings : List ℚ) : ContactSchedule :=
  ⟨timings.enum.map (fun p => ⟨p.2, p.1 % 2 == 0⟩)⟩

/-- Cumulative times `0, d₁, d₁+d₂, …` of a duration list. -/
def cumTimes (ds : List ℚ) : List ℚ :=
  ds.scanl (fun a d => a + d) 0

/-- Value at fraction `r` on the segment from `s` to `e`. -/
def Vec3.lerpAt (s e : Vec3) (r : ℚ) : Vec3 :=
  s.add (Vec3.smul r (e.sub s))

/-- Cubic Hermite segment between two (position, velocity) nodes over a
duration `d`. -/
def hermiteSegment (d : ℚ) (p0 v0 p1 v1 : Vec3) : Segment :=
  ⟨d, [p0, v0,
    Vec3.smul (1/(d*d)) ((Vec3.smul 3 (p1.sub p0)).sub (Vec3.smul d ((Vec3.smul 2 v0).add v1))),
    Vec3.smul (1/(d*d*d)) ((Vec3.smul 2 (p0.sub p1)).add (Vec3.smul d (v0.add v1)))]⟩

/-- Spline through consecutive (position, velocity) nodes, one cubic Hermite
segment per duration. -/
def mkSplineFromNodes (nodes : List (Vec3 × Vec3)) (ds : List ℚ) : Spline :=
  ⟨(ds.zip (nodes.zip nodes.tail)).map
    (fun x => hermiteSegment x.1 x.2.1.1 x.2.1.2 x.2.2.1 x.2.2.2)⟩

/-- Modelled from the spec: `InitializeVariables` seeds every node with a
value linearly interpolated between start and end value, proportioned by
cumulative time, and zero velocities (§4.2); the node sources
(`node_values.h`, `phase_nodes.h`) are not in the snapshot. -/
def initializeNodesSpline (startP endP : Vec3) (ds : List ℚ) : Spline :=
  mkSplineFromNodes
    ((cumTimes ds).map (fun c => (Vec3.lerpAt startP endP (c / ds.sum), Vec3.zero)))
    ds

/-- Modelled from the spec: one polynomial segment per swing phase,
`perStance` equal segments per stance phase (§4.2). -/
def segmentDurations (contactSeq : List Bool) (timePerPhase : List ℚ)
    (perStance : ℕ) : List ℚ :=
  (contactSeq.zip timePerPhase).flatMap
    (fun cd => if cd.1 then List.replicate perStance (cd.2 / (perStance : ℚ)) else [cd.2])

/-- A phase-node spline (`EndeffectorNodes` / `ForceNodes`): segment layout
from the contact sequence, nodes seeded by interpolation. -/
def mkPhaseSpline (startP endP : Vec3) (contactSeq : List Bool)
    (timePerPhase : List ℚ) (perStance : ℕ) : Spline :=
  initializeNodesSpline startP endP (segmentDurations contactSeq timePerPhase perStance)

/-- Derivative selector of a boundary constraint (`kPos` / `kVel`). -/
inductive Dx where
  | kPos
  | kVel
deriving DecidableEq

/-- Coordinate axes; for the angular base state `X, Y, Z` are roll, pitch,
yaw (source line 50: "euler (roll, pitch, yaw)"). -/
inductive CoordAxis where
  | X
  | Y
  | Z
deriving DecidableEq

/-- Which node of the spline a boundary constraint targets. -/
inductive NodeSel where
  | first
  | last
deriving DecidableEq

/-- A recorded boundary constraint (§3 `BoundaryConstraint`): restricts the
listed axes of the first or last node to an exact value. -/
structure BoundRec where
  node : NodeSel
  kind : Dx
  dims : List CoordAxis
  value : Vec3
deriving DecidableEq

/-- The boundary constraints `SetBaseRepresentationHermite` records for one
base spline (source lines 183-194): start position and velocity on `{X,Y,Z}`,
final velocity on `{X,Y,Z}`; final position on `{X,Y}` for the linear spline
only, and on `{Z}` (yaw) for the angular spline only. -/
def hermiteBaseBounds (id : VarId) (ini finS : StateLin3d) : List BoundRec :=
  [⟨.first, .kPos, [.X, .Y, .Z], ini.p⟩,
   ⟨.first, .kVel, [.X, .Y, .Z], ini.v⟩,
   ⟨.last, .kVel, [.X, .Y, .Z], finS.v⟩]
  ++ (if id = .base_linear then [⟨.last, .kPos, [.X, .Y], finS.p⟩] else [])
  ++ (if id = .base_angular then [⟨.last, .kPos, [.Z], finS.p⟩] else [])

/-- Whether some recorded bound constrains axis `a` of derivative `k` at
node `n`. -/
def boundsFix (bs : List BoundRec) (n : NodeSel) (k : Dx) (a : CoordAxis) : Bool :=
  bs.any (fun b => b.node == n && b.kind == k && b.dims.contains a)

/-- `SetBaseRepresentationHermite` (source lines 166-230), component part:
one node spline per base axis-group, initialized over the base poly
durations.  (The boundary constraints it records are `hermiteBaseBounds`.) -/
def setBaseRepresentationHermite (f : MotionOptimizerFacade) :
    List (VarId × Component × Bool) :=
  [(.base_linear,
    .spline (initializeNodesSpline f.inital_base.lin.p f.final_base.lin.p
      f.params.basePolyDurations), true),
   (.base_angular,
    .spline (initializeNodesSpline f.inital_base.ang.p f.final_base.ang.p
      f.params.basePolyDurations), true)]

/-- The boundary constraints recorded by the Hermite base representation, per
spline identifier, in the source's loop order (angular after linear). -/
def setBaseRepresentationHermiteBounds (f : MotionOptimizerFacade) :
    List (VarId × List BoundRec) :=
  [(.base_linear, hermiteBaseBounds .base_linear f.inital_base.lin f.final_base.lin),
   (.base_angular, hermiteBaseBounds .base_angular f.inital_base.ang f.final_base.ang)]

/-- `SetBaseRepresentationCoeff` (source lines 136-164): per base poly
duration one raw coefficient block (free variables), and per axis-group one
aggregate coefficient spline added for lookup only (`is_variable = false`,
source lines 152 and 163).  The polynomial payloads are zero-initialized
coefficient storage of the configured order (§4.3: this strategy only
supplies raw per-segment coefficient storage). -/
def setBaseRepresentationCoeff (f : MotionOptimizerFacade) :
    List (VarId × Component × Bool) :=
  let ds := f.params.basePolyDurations
  let zeroPoly : List Vec3 := List.replicate (f.params.order_coeff_polys + 1) Vec3.zero
  ((List.range ds.length).map (fun i =>
      (VarId.base_angular_poly i, Component.spline ⟨[⟨ds.getD i 0, zeroPoly⟩]⟩, true)))
  ++ [(.base_angular, .spline ⟨ds.map (fun d => ⟨d, zeroPoly⟩)⟩, false)]
  ++ ((List.range ds.length).map (fun i =>
      (VarId.base_linear_poly i, Component.spline ⟨[⟨ds.getD i 0, zeroPoly⟩]⟩, true)))
  ++ [(.base_linear, .spline ⟨ds.map (fun d => ⟨d, zeroPoly⟩)⟩, false)]

/-- The per-limb contact-schedule components (source lines 79-87): every
limb's schedule is added, optimizable exactly when the `TotalTime` constraint
is enabled (`optimize_timings`, line 85). -/
def scheduleComponents (f : MotionOptimizerFacade) : List (VarId × Component × Bool) :=
  (List.range f.model.eeCount).map (fun ee =>
    (VarId.eeSchedule ee,
     Component.schedule (mkContactSchedule (f.params.contact_timings.getD ee [])),
     f.params.ConstraintExists .TotalTime))

/-- The per-limb motion components (source lines 90-113): per limb first the
xy-motion block, then the z-motion block, both optimizable.  The z block is
seeded from the z rows of the initial/final positions (`bottomRows<1>`,
line 110), kept in the z slot of the 3-vector. -/
def motionComponents (f : MotionOptimizerFacade) : List (VarId × Component × Bool) :=
  (List.range f.model.eeCount).flatMap (fun ee =>
    let cs := mkContactSchedule (f.params.contact_timings.getD ee [])
    let finP := f.final_base.lin.p.add (f.model.nominalStanceInBase.getD ee Vec3.zero)
    let iniP := f.initial_ee_W.getD ee Vec3.zero
    [(VarId.eeMotionXY ee,
      Component.spline (mkPhaseSpline iniP finP cs.GetContactSequence cs.GetTimePerPhase 1),
      true),
     (VarId.eeMotionZ ee,
      Component.spline (mkPhaseSpline ⟨0, 0, iniP.z⟩ ⟨0, 0, finP.z⟩
        cs.GetContactSequence cs.GetTimePerPhase 2),
      true)])

/-- The per-limb force components (source lines 116-129): one force block per
limb, `force_splines_per_stance_phase_` segments per stance, seeded with the
standing force. -/
def forceComponents (f : MotionOptimizerFacade) : List (VarId × Component × Bool) :=
  (List.range f.model.eeCount).map (fun ee =>
    let cs := mkContactSchedule (f.params.contact_timings.getD ee [])
    let fstance : Vec3 := ⟨0, 0, f.model.standingZForce⟩
    (VarId.eeForce ee,
     Component.spline (mkPhaseSpline fstance fstance cs.GetContactSequence
       cs.GetTimePerPhase f.params.force_splines_per_stance_phase),
     true))

/-- `MotionOptimizerFacade::BuildVariables` (source lines 59-134): the switch
on the base representation aborts (`assert(false)`, line 74) on an
unrecognized kind — modelled as an error, nothing constructed — and otherwise
the composite holds, in source order, the base blocks, then per limb the
contact schedules, the xy/z motion blocks, and the force blocks. -/
def MotionOptimizerFacade.BuildVariables (f : MotionOptimizerFacade) :
    Except String Composite :=
  match f.params.baseRepresentation with
  | 0 => .ok ⟨setBaseRepresentationHermite f ++ scheduleComponents f
              ++ motionComponents f ++ forceComponents f⟩
  | 1 => .ok ⟨setBaseRepresentationCoeff f ++ scheduleComponents f
              ++ motionComponents f ++ forceComponents f⟩
  | _ => .error "representation not defined"

/-- Which solver adapter `SolveProblem` dispatched to. -/
inductive SolverRun where
  | ipoptSolve
  | snoptSolve
deriving DecidableEq

/-- `MotionOptimizerFacade::SolveProblem` (source lines 255-270): builds the
variables (aborting on a bad representation), delegates costs/constraints to
the external factory (out of scope, §1), then dispatches on the solver kind
(`0 = Ipopt, 1 = Snopt` as the enum's underlying value), aborting
(`assert(false)`, line 266) on an unrecognized kind. -/
def MotionOptimizerFacade.SolveProblem (f : MotionOptimizerFacade) (solver : ℕ) :
    Except String SolverRun := do
  let _variables ← f.BuildVariables
  match solver with
  | 0 => pure SolverRun.ipoptSolve
  | 1 => pure SolverRun.snoptSolve
  | _ => throw "solver not implemented"

/-- Modelled from the spec: the NLP records per-iteration variable snapshots
retrievable by iteration index (§6); the snapshots are composites. -/
structure NLP where
  iterates : List Composite

def NLP.GetIterationCount (n : NLP) : ℕ := n.iterates.length

def NLP.GetOptVariables (n : NLP) (i : ℕ) : Composite := n.iterates.getD i ⟨[]⟩

/-- `MotionOptimizerFacade::GetTrajectories` (source lines 272-283): one
trajectory per recorded iterate, in iteration order. -/
def GetTrajectories (eeCount : ℕ) (n : NLP) (dt : ℚ) :
    List (Option (List RobotStateCartesian)) :=
  (List.range n.GetIterationCount).map
    (fun i => buildTrajectory eeCount (n.GetOptVariables i) dt)

/-! ## Counting and lookup helpers over the composite's parts -/

lemma varIdBeq_eq_decide (a b : VarId) : (a == b) = decide (a = b) := rfl

lemma countP_flatMap {α β : Type} (l : List α) (g : α → List β) (p : β → Bool) :
    (l.flatMap g).countP p = (l.map (fun a => (g a).countP p)).sum := by
  induction l with
  | nil => rfl
  | cons a as ih => simp [List.flatMap_cons, List.countP_append, ih]

lemma countP_range_decide_one (n e : ℕ) (he : e < n) :
    (List.range n).countP (fun i => decide (i = e)) = 1 := by
  induction n with
  | zero => omega
  | succ n ih =>
    rw [List.range_succ, List.countP_append]
    by_cases hc : e < n
    · rw [ih hc]
      simp [List.countP_cons, (show ¬ (n = e) by omega)]
    · have he' : e = n := by omega
      subst he'
      have h0 : (List.range e).countP (fun i => decide (i = e)) = 0 := by
        refine List.countP_eq_zero.mpr ?_
        intro a ha
        simp only [List.mem_range] at ha
        simp
        omega
      simp [h0, List.countP_cons]

lemma countP_range_decide_zero (n e : ℕ) (he : ¬ e < n) :
    (List.range n).countP (fun i => decide (i = e)) = 0 := by
  refine List.countP_eq_zero.mpr ?_
  intro a ha
  simp only [List.mem_range] at ha
  simp
  omega

lemma find?_range_decide (n e : ℕ) (he : e < n) :
    (List.range n).find? (fun i => decide (i = e)) = some e := by
  induction n with
  | zero => omega
  | succ n ih =>
    rw [List.range_succ, List.find?_append]
    by_cases hc : e < n
    · rw [ih hc]
      rfl
    · have he' : e = n := by omega
      subst he'
      have h0 : (List.range e).find? (fun i => decide (i = e)) = none := by
        refine List.find?_eq_none.mpr ?_
        intro a ha
        simp only [List.mem_range] at ha
        simp
        omega
      rw [h0]
      simp

/-- The composite a successful `BuildVariables` returns is one of the two
branch layouts. -/
lemma buildVariables_components (f : MotionOptimizerFacade) (c : Composite)
    (hc : f.BuildVariables = .ok c) :
    c.components = setBaseRepresentationHermite f ++ scheduleComponents f
        ++ motionComponents f ++ forceComponents f
    ∨ c.components = setBaseRepresentationCoeff f ++ scheduleComponents f
        ++ motionComponents f ++ forceComponents f := by
  unfold MotionOptimizerFacade.BuildVariables at hc
  cases hrep : f.params.baseRepresentation with
  | zero =>
    rw [hrep] at hc
    simp only [Except.ok.injEq] at hc
    left
    rw [← hc]
  | succ n =>
    cases n with
    | zero =>
      rw [hrep] at hc
      simp only [Except.ok.injEq] at hc
      right
      rw [← hc]
    | succ m =>
      rw [hrep] at hc
      simp at hc

lemma sum_map_ite_count {α : Type} [DecidableEq α] (l : List α) (e : α) :
    (l.map (fun a => if a = e then 1 else 0)).sum = l.countP (fun a => decide (a = e)) := by
  induction l with
  | nil => rfl
  | cons a as ih =>
    by_cases h : a = e <;> simp [List.countP_cons, h, ih] <;> omega

lemma countP_components_eeSchedule (f : MotionOptimizerFacade) (c : Composite)
    (hc : f.BuildVariables = .ok c) (e : ℕ) :
    c.components.countP (fun x => x.1 == VarId.eeSchedule e)
      = (List.range f.model.eeCount).countP (fun i => decide (i = e)) := by
  rcases buildVariables_components f c hc with h | h <;>
    rw [h] <;>
    simp [List.countP_append, setBaseRepresentationHermite, setBaseRepresentationCoeff,
      scheduleComponents, motionComponents, forceComponents, List.countP_map,
      countP_flatMap, List.countP_cons, varIdBeq_eq_decide, Function.comp_def,
      List.countP_false, sum_map_ite_count]

lemma countP_components_eeMotionXY (f : MotionOptimizerFacade) (c : Composite)
    (hc : f.BuildVariables = .ok c) (e : ℕ) :
    c.components.countP (fun x => x.1 == VarId.eeMotionXY e)
      = (List.range f.model.eeCount).countP (fun i => decide (i = e)) := by
  rcases buildVariables_components f c hc with h | h <;>
    rw [h] <;>
    simp [List.countP_append, setBaseRepresentationHermite, setBaseRepresentationCoeff,
      scheduleComponents, motionComponents, forceComponents, List.countP_map,
      countP_flatMap, List.countP_cons, varIdBeq_eq_decide, Function.comp_def,
      List.countP_false, sum_map_ite_count]

lemma countP_components_eeMotionZ (f : MotionOptimizerFacade) (c : Composite)
    (hc : f.BuildVariables = .ok c) (e : ℕ) :
    c.components.countP (fun x => x.1 == VarId.eeMotionZ e)
      = (List.range f.model.eeCount).countP (fun i => decide (i = e)) := by
  rcases buildVariables_components f c hc with h | h <;>
    rw [h] <;>
    simp [List.countP_append, setBaseRepresentationHermite, setBaseRepresentationCoeff,
      scheduleComponents, motionComponents, forceComponents, List.countP_map,
      countP_flatMap, List.countP_cons, varIdBeq_eq_decide, Function.comp_def,
      List.countP_false, sum_map_ite_count]

lemma countP_components_eeForce (f : MotionOptimizerFacade) (c : Composite)
    (hc : f.BuildVariables = .ok c) (e : ℕ) :
    c.components.countP (fun x => x.1 == VarId.eeForce e)
      = (List.range f.model.eeCount).countP (fun i => decide (i = e)) := by
  rcases buildVariables_components f c hc with h | h <;>
    rw [h] <;>
    simp [List.countP_append, setBaseRepresentationHermite, setBaseRepresentationCoeff,
      scheduleComponents, motionComponents, forceComponents, List.countP_map,
      countP_flatMap, List.countP_cons, varIdBeq_eq_decide, Function.comp_def,
      List.countP_false, sum_map_ite_count]

lemma find?_base_hermite_none (f : MotionOptimizerFacade) (e : ℕ) (tgt : ℕ → VarId)
    (htgt : tgt = VarId.eeSchedule ∨ tgt = VarId.eeMotionXY ∨ tgt = VarId.eeMotionZ
      ∨ tgt = VarId.eeForce) :
    (setBaseRepresentationHermite f).find? (fun x => x.1 == tgt e) = none := by
  refine List.find?_eq_none.mpr ?_
  intro x hx
  simp only [setBaseRepresentationHermite, List.mem_cons, List.not_mem_nil, or_false] at hx
  rcases htgt with h | h | h | h <;> subst h <;>
    rcases hx with h1 | h1 <;> subst h1 <;> simp [varIdBeq_eq_decide]

lemma find?_base_coeff_none (f : MotionOptimizerFacade) (e : ℕ) (tgt : ℕ → VarId)
    (htgt : tgt = VarId.eeSchedule ∨ tgt = VarId.eeMotionXY ∨ tgt = VarId.eeMotionZ
      ∨ tgt = VarId.eeForce) :
    (setBaseRepresentationCoeff f).find? (fun x => x.1 == tgt e) = none := by
  refine List.find?_eq_none.mpr ?_
  intro x hx
  simp only [setBaseRepresentationCoeff, List.mem_append, List.mem_map, List.mem_cons,
    List.not_mem_nil, or_false, List.mem_range] at hx
  rcases htgt with h | h | h | h <;> subst h <;>
    rcases hx with ((⟨i, _, h1⟩ | h1) | ⟨i, _, h1⟩) | h1 <;> subst h1 <;>
      simp [varIdBeq_eq_decide]

/-- Looking up limb `e`'s schedule in the built composite yields its contact
schedule. -/
lemma getSchedule_buildVariables (f : MotionOptimizerFacade) (c : Composite)
    (hc : f.BuildVariables = .ok c) (e : ℕ) (he : e < f.model.eeCount) :
    c.GetSchedule (.eeSchedule e)
      = some (mkContactSchedule (f.params.contact_timings.getD e [])) := by
  have hsched : (scheduleComponents f).find? (fun x => x.1 == VarId.eeSchedule e)
      = some (VarId.eeSchedule e,
          Component.schedule (mkContactSchedule (f.params.contact_timings.getD e [])),
          f.params.ConstraintExists .TotalTime) := by
    unfold scheduleComponents
    rw [List.find?_map]
    have hcomp : ((fun x : VarId × Component × Bool => x.1 == VarId.eeSchedule e) ∘
        (fun ee => (VarId.eeSchedule ee,
          Component.schedule (mkContactSchedule (f.params.contact_timings.getD ee [])),
          f.params.ConstraintExists .TotalTime)))
        = fun i => decide (i = e) := by
      funext i
      simp [varIdBeq_eq_decide]
    rw [hcomp, find?_range_decide _ _ he]
    rfl
  rcases buildVariables_components f c hc with h | h
  · unfold Composite.GetSchedule Composite.find
    rw [h, List.append_assoc, List.append_assoc, List.find?_append,
      find?_base_hermite_none f e _ (Or.inl rfl), Option.none_or,
      List.find?_append, hsched]
    simp
  · unfold Composite.GetSchedule Composite.find
    rw [h, List.append_assoc, List.append_assoc, List.find?_append,
      find?_base_coeff_none f e _ (Or.inl rfl), Option.none_or,
      List.find?_append, hsched]
    simp

lemma flatMap_const_nil {α β : Type} (l : List α) :
    l.flatMap (fun _ => ([] : List β)) = [] := by
  induction l with
  | nil => rfl
  | cons a as ih => simp [List.flatMap_cons, ih]

/-- The schedule blocks' contribution to the flattened free-value vector:
their phase durations exactly when `TotalTime` is enabled, nothing
otherwise. -/
lemma freeValues_scheduleComponents (f : MotionOptimizerFacade) :
    Composite.freeValues ⟨scheduleComponents f⟩
      = (if f.params.ConstraintExists .TotalTime = true
          then (List.range f.model.eeCount).flatMap
            (fun i => (mkContactSchedule (f.params.contact_timings.getD i [])).GetTimePerPhase)
          else []) := by
  unfold Composite.freeValues scheduleComponents
  rw [List.flatMap_map]
  cases hopt : f.params.ConstraintExists .TotalTime with
  | true =>
    simp only [hopt, if_pos]
    congr 1
  | false =>
    simp only [hopt, Function.comp_def, Bool.false_eq_true, if_false]
    exact flatMap_const_nil _

/-- The free-value vector of a built composite decomposes by part; in
particular the schedules contribute their durations if and only if the
`TotalTime` constraint is enabled. -/
lemma freeValues_buildVariables (f : MotionOptimizerFacade) (c : Composite)
    (hc : f.BuildVariables = .ok c) :
    ∃ base, c.components = base ++ scheduleComponents f
        ++ motionComponents f ++ forceComponents f
      ∧ c.freeValues
          = Composite.freeValues ⟨base⟩
            ++ (if f.params.ConstraintExists .TotalTime = true
                then (List.range f.model.eeCount).flatMap
                  (fun i => (mkContactSchedule (f.params.contact_timings.getD i [])).GetTimePerPhase)
                else [])
            ++ Composite.freeValues ⟨motionComponents f⟩
            ++ Composite.freeValues ⟨forceComponents f⟩ := by
  rcases buildVariables_components f c hc with h | h <;>
    refine ⟨_, h, ?_⟩ <;>
    · rw [← freeValues_scheduleComponents]
      unfold Composite.freeValues
      rw [h]
      simp only [List.flatMap_append]

/-- A well-formed single-limb facade in the Hermite representation, without
phase-timing optimization (`TotalTime` not among the constraints). -/
def sampleFacade : MotionOptimizerFacade :=
  ⟨⟨1, [Vec3.zero], 100, 50⟩,
   ⟨0, [[1/2, 1/2]], 1/10, 2, 3, [1/2, 1/2], 4, [ConstraintName.Dynamic]⟩,
   ⟨StateLin3d.zero, StateLin3d.zero⟩,
   ⟨StateLin3d.zero, StateLin3d.zero⟩,
   [Vec3.zero]⟩

/-- The same facade with an unrecognized base-representation value. -/
def badRepFacade : MotionOptimizerFacade :=
  ⟨⟨1, [Vec3.zero], 100, 50⟩,
   ⟨7, [[1/2, 1/2]], 1/10, 2, 3, [1/2, 1/2], 4, [ConstraintName.Dynamic]⟩,
   ⟨StateLin3d.zero, StateLin3d.zero⟩,
   ⟨StateLin3d.zero, StateLin3d.zero⟩,
   [Vec3.zero]⟩

/-- C4: under the Hermite base representation, a (node, derivative, axis)
triple of either base spline is boundary-constrained exactly as claimed:
start position and velocity on all three axes, final velocity on all three
axes, final position on `{X, Y}` for the linear spline and only on `Z` (yaw)
for the angular one — and nothing else. -/
theorem C4_hermite_boundary_bounds (f : MotionOptimizerFacade)
    (n : NodeSel) (k : Dx) (a : CoordAxis) :
    (boundsFix (hermiteBaseBounds .base_linear f.inital_base.lin f.final_base.lin) n k a
        = true
      ↔ (n = .first ∨ (n = .last ∧ k = .kVel)
          ∨ (n = .last ∧ k = .kPos ∧ (a = .X ∨ a = .Y))))
    ∧ (boundsFix (hermiteBaseBounds .base_angular f.inital_base.ang f.final_base.ang) n k a
        = true
      ↔ (n = .first ∨ (n = .last ∧ k = .kVel)
          ∨ (n = .last ∧ k = .kPos ∧ a = .Z)))
    ∧ setBaseRepresentationHermiteBounds f
        = [(.base_linear, hermiteBaseBounds .base_linear f.inital_base.lin f.final_base.lin),
           (.base_angular, hermiteBaseBounds .base_angular f.inital_base.ang f.final_base.ang)] := by
  refine ⟨?_, ?_, rfl⟩ <;>
    cases n <;> cases k <;> cases a <;>
      simp [boundsFix, hermiteBaseBounds]

/-- Which identifiers are the per-limb motion identifiers of limb `e`. -/
def isEEMotion (e : ℕ) : VarId → Bool
  | .eeMotionXY i => i == e
  | .eeMotionZ i => i == e
  | _ => false

/-- C5 counterexample: `BuildVariables` registers TWO motion blocks for limb
0 (xy and z), not exactly one under a single identifier. -/
theorem C5_single_motion_block_counterexample :
    (sampleFacade.BuildVariables.map
        (fun c => c.components.countP (fun x => isEEMotion 0 x.1))) = .ok 2
    ∧ (sampleFacade.BuildVariables.map
        (fun c => c.components.countP (fun x => isEEMotion 0 x.1))) ≠ .ok 1 := by
  have h : (sampleFacade.BuildVariables.map
      (fun c => c.components.countP (fun x => isEEMotion 0 x.1))) = .ok 2 := rfl
  refine ⟨h, ?_⟩
  rw [h]
  simp

/-- C5 amended: `BuildVariables` registers per limb exactly one xy-motion
block and exactly one z-motion block, each under its own identifier
(alongside exactly one schedule and one force block), and the motion position
`BuildTrajectory` puts in a state is read from the xy-motion block. -/
theorem C5_motion_blocks_amended (f : MotionOptimizerFacade) (c : Composite)
    (hc : f.BuildVariables = .ok c) (e : ℕ) (he : e < f.model.eeCount) :
    c.components.countP (fun x => x.1 == VarId.eeMotionXY e) = 1
    ∧ c.components.countP (fun x => x.1 == VarId.eeMotionZ e) = 1
    ∧ c.components.countP (fun x => x.1 == VarId.eeSchedule e) = 1
    ∧ c.components.countP (fun x => x.1 == VarId.eeForce e) = 1
    ∧ (∀ (n : ℕ) (vars : Composite) (t : ℚ) (st : RobotStateCartesian) (i : ℕ),
        stateAt n vars t = some st → i < n →
        ∃ sp, vars.GetSpline (.eeMotionXY i) = some sp ∧
          (st.ee.getD i EEState.default).motion = sp.GetPoint t) := by
  refine ⟨?_, ?_, ?_, ?_, ?_⟩
  · rw [countP_components_eeMotionXY f c hc e]
    exact countP_range_decide_one _ _ he
  · rw [countP_components_eeMotionZ f c hc e]
    exact countP_range_decide_one _ _ he
  · rw [countP_components_eeSchedule f c hc e]
    exact countP_range_decide_one _ _ he
  · rw [countP_components_eeForce f c hc e]
    exact countP_range_decide_one _ _ he
  · intro n vars t st i hst hi
    obtain ⟨_, _, _, _, hee⟩ := stateAt_spec n vars t st hst
    obtain ⟨sched, mot, frc, _, hmot, _, heq⟩ := hee i hi
    exact ⟨mot, hmot, by rw [heq]⟩

/-- Witness for C5 amended at the sample facade, limb 0. -/
theorem C5_motion_blocks_amended_witness :
    ∃ c, sampleFacade.BuildVariables = .ok c
      ∧ 0 < sampleFacade.model.eeCount
      ∧ c.components.countP (fun x => x.1 == VarId.eeMotionXY 0) = 1
      ∧ c.components.countP (fun x => x.1 == VarId.eeMotionZ 0) = 1 := by
  refine ⟨_, rfl, by norm_num [sampleFacade], ?_, ?_⟩
  · exact (C5_motion_blocks_amended sampleFacade _ rfl 0
      (by norm_num [sampleFacade])).1
  · exact (C5_motion_blocks_amended sampleFacade _ rfl 0
      (by norm_num [sampleFacade])).2.1

/-- C6: an unrecognized base-representation kind makes `BuildVariables` stop
with an error (no composite constructed), and an unrecognized solver kind
makes `SolveProblem` stop with an error. -/
theorem C6_unrecognized_kind_aborts (f g : MotionOptimizerFacade) (s : ℕ)
    (hrep0 : f.params.baseRepresentation ≠ 0)
    (hrep1 : f.params.baseRepresentation ≠ 1)
    (hs0 : s ≠ 0) (hs1 : s ≠ 1) :
    f.BuildVariables = .error "representation not defined"
    ∧ ∃ msg, g.SolveProblem s = .error msg := by
  constructor
  · unfold MotionOptimizerFacade.BuildVariables
    rcases hr : f.params.baseRepresentation with _ | n
    · exact absurd hr hrep0
    · rcases n with _ | m
      · exact absurd hr hrep1
      · rfl
  · unfold MotionOptimizerFacade.SolveProblem
    cases hbv : g.BuildVariables with
    | error msg =>
      exact ⟨msg, rfl⟩
    | ok v =>
      refine ⟨"solver not implemented", ?_⟩
      rcases s with _ | _ | m
      · exact absurd rfl hs0
      · exact absurd rfl hs1
      · rfl

/-- Witness for C6: representation value 7 and solver value 5 both abort. -/
theorem C6_unrecognized_kind_aborts_witness :
    (badRepFacade.params.baseRepresentation ≠ 0
      ∧ badRepFacade.params.baseRepresentation ≠ 1
      ∧ (5 : ℕ) ≠ 0 ∧ (5 : ℕ) ≠ 1)
    ∧ badRepFacade.BuildVariables = .error "representation not defined"
    ∧ ∃ msg, badRepFacade.SolveProblem 5 = .error msg := by
  obtain ⟨h1, h2⟩ := C6_unrecognized_kind_aborts badRepFacade badRepFacade 5
    (by norm_num [badRepFacade]) (by norm_num [badRepFacade])
    (by norm_num) (by norm_num)
  exact ⟨⟨by norm_num [badRepFacade], by norm_num [badRepFacade],
    by norm_num, by norm_num⟩, h1, h2⟩

/-- C7: every limb's contact schedule is in the composite — exactly one block
under its identifier, holding the limb's schedule, flagged optimizable
exactly when the `TotalTime` constraint is enabled — it is retrievable by
lookup regardless, and the flattened free-value vector contains the schedule
durations when the flag is set and no schedule contribution otherwise. -/
theorem C7_schedule_always_present_optionally_optimized
    (f : MotionOptimizerFacade) (c : Composite)
    (hc : f.BuildVariables = .ok c) (e : ℕ) (he : e < f.model.eeCount) :
    c.components.countP (fun x => x.1 == VarId.eeSchedule e) = 1
    ∧ (VarId.eeSchedule e,
        Component.schedule (mkContactSchedule (f.params.contact_timings.getD e [])),
        f.params.ConstraintExists .TotalTime) ∈ c.components
    ∧ c.GetSchedule (.eeSchedule e)
        = some (mkContactSchedule (f.params.contact_timings.getD e []))
    ∧ (∃ base, c.components = base ++ scheduleComponents f
          ++ motionComponents f ++ forceComponents f
        ∧ c.freeValues
            = Composite.freeValues ⟨base⟩
              ++ (if f.params.ConstraintExists .TotalTime = true
                  then (List.range f.model.eeCount).flatMap
                    (fun i => (mkContactSchedule
                      (f.params.contact_timings.getD i [])).GetTimePerPhase)
                  else [])
              ++ Composite.freeValues ⟨motionComponents f⟩
              ++ Composite.freeValues ⟨forceComponents f⟩) := by
  refine ⟨?_, ?_, getSchedule_buildVariables f c hc e he,
    freeValues_buildVariables f c hc⟩
  · rw [countP_components_eeSchedule f c hc e]
    exact countP_range_decide_one _ _ he
  · have hmem : (VarId.eeSchedule e,
        Component.schedule (mkContactSchedule (f.params.contact_timings.getD e [])),
        f.params.ConstraintExists .TotalTime) ∈ scheduleComponents f := by
      unfold scheduleComponents
      exact List.mem_map.mpr ⟨e, List.mem_range.mpr he, rfl⟩
    rcases buildVariables_components f c hc with h | h <;>
      rw [h] <;>
      simp only [List.mem_append] <;>
      exact Or.inl (Or.inl (Or.inr hmem))

/-- Witness for C7 at the sample facade (TotalTime disabled: schedule present
for lookup, contributing nothing to the free values). -/
theorem C7_schedule_always_present_optionally_optimized_witness :
    ∃ c, sampleFacade.BuildVariables = .ok c
      ∧ 0 < sampleFacade.model.eeCount
      ∧ c.components.countP (fun x => x.1 == VarId.eeSchedule 0) = 1
      ∧ c.GetSchedule (.eeSchedule 0)
          = some (mkContactSchedule (sampleFacade.params.contact_timings.getD 0 []))
      ∧ sampleFacade.params.ConstraintExists .TotalTime = false := by
  obtain ⟨h1, _, h3, _⟩ := C7_schedule_always_present_optionally_optimized
    sampleFacade _ rfl 0 (by norm_num [sampleFacade])
  exact ⟨_, rfl, by norm_num [sampleFacade], h1, h3, rfl⟩

/-- C9: `GetTrajectories(dt)` yields exactly one trajectory per recorded
iterate — its length is the iteration count and its `i`-th element is the
trajectory built from the `i`-th iterate's variables at that `dt`. -/
theorem C9_one_trajectory_per_iterate (eeCount : ℕ) (n : NLP) (dt : ℚ) :
    (GetTrajectories eeCount n dt).length = n.GetIterationCount
    ∧ ∀ i, i < n.GetIterationCount →
        (GetTrajectories eeCount n dt).getD i none
          = buildTrajectory eeCount (n.GetOptVariables i) dt := by
  constructor
  · simp [GetTrajectories]
  · intro i hi
    unfold GetTrajectories
    have hlen : i < ((List.range n.GetIterationCount).map
        (fun i => buildTrajectory eeCount (n.GetOptVariables i) dt)).length := by
      simpa using hi
    rw [List.getD_eq_getElem _ _ hlen]
    simp

/-- Witness for C9 on a two-iterate run. -/
theorem C9_one_trajectory_per_iterate_witness :
    (GetTrajectories 1 ⟨[sampleComposite 1, sampleComposite 2]⟩ (1/10)).length
        = NLP.GetIterationCount ⟨[sampleComposite 1, sampleComposite 2]⟩
    ∧ (0 : ℕ) < NLP.GetIterationCount ⟨[sampleComposite 1, sampleComposite 2]⟩
    ∧ (GetTrajectories 1 ⟨[sampleComposite 1, sampleComposite 2]⟩ (1/10)).getD 0 none
        = buildTrajectory 1 (NLP.GetOptVariables ⟨[sampleComposite 1, sampleComposite 2]⟩ 0) (1/10) := by
  obtain ⟨h1, h2⟩ := C9_one_trajectory_per_iterate 1
    ⟨[sampleComposite 1, sampleComposite 2]⟩ (1/10)
  exact ⟨h1, by norm_num [NLP.GetIterationCount], h2 0 (by norm_num [NLP.GetIterationCount])⟩

/-! ## C10: the z-motion blocks are never read by `BuildTrajectory` -/

/-- Two composite entries that are either equal or carry the same z-motion
identifier and flag (payload free to differ). -/
def ZOnlyDiff (x y : VarId × Component × Bool) : Prop :=
  x = y ∨ (x.1 = y.1 ∧ (∃ e, x.1 = VarId.eeMotionZ e) ∧ x.2.2 = y.2.2)

/-- Two composites whose contents differ at most in the values stored in
z-motion blocks. -/
def Composite.ZMotionOnlyDiff (c₁ c₂ : Composite) : Prop :=
  List.Forall₂ ZOnlyDiff c₁.components c₂.components

lemma find?_zrel (l₁ l₂ : List (VarId × Component × Bool))
    (h : List.Forall₂ ZOnlyDiff l₁ l₂) (id : VarId)
    (hid : ∀ e, id ≠ VarId.eeMotionZ e) :
    l₁.find? (fun x => x.1 == id) = l₂.find? (fun x => x.1 == id) := by
  induction h with
  | nil => rfl
  | @cons a b as bs hab htail ih =>
    rcases hab with heq | ⟨hid1, ⟨e, hz⟩, _⟩
    · subst heq
      by_cases hp : (a.1 == id) = true
      · rw [List.find?_cons_of_pos (p := fun x : VarId × Component × Bool => x.1 == id) _ hp,
          List.find?_cons_of_pos (p := fun x : VarId × Component × Bool => x.1 == id) _ hp]
      · rw [List.find?_cons_of_neg (p := fun x : VarId × Component × Bool => x.1 == id) _ hp,
          List.find?_cons_of_neg (p := fun x : VarId × Component × Bool => x.1 == id) _ hp]
        exact ih
    · have hna : ¬ (a.1 == id) = true := by
        rw [varIdBeq_eq_decide]
        simp only [decide_eq_true_eq]
        rw [hz]
        exact fun hcontra => hid e hcontra.symm
      have hnb : ¬ (b.1 == id) = true := by
        rw [varIdBeq_eq_decide]
        simp only [decide_eq_true_eq]
        rw [← hid1, hz]
        exact fun hcontra => hid e hcontra.symm
      rw [List.find?_cons_of_neg (p := fun x : VarId × Component × Bool => x.1 == id) _ hna,
        List.find?_cons_of_neg (p := fun x : VarId × Component × Bool => x.1 == id) _ hnb]
      exact ih

lemma find_zrel (c₁ c₂ : Composite) (h : c₁.ZMotionOnlyDiff c₂) (id : VarId)
    (hid : ∀ e, id ≠ VarId.eeMotionZ e) : c₁.find id = c₂.find id := by
  unfold Composite.find
  rw [find?_zrel _ _ h id hid]

lemma stateAt_zrel (n : ℕ) (c₁ c₂ : Composite) (t : ℚ)
    (h : c₁.ZMotionOnlyDiff c₂) : stateAt n c₁ t = stateAt n c₂ t := by
  have hlin : c₁.GetSpline .base_linear = c₂.GetSpline .base_linear := by
    unfold Composite.GetSpline
    rw [find_zrel c₁ c₂ h _ (fun e he => VarId.noConfusion he)]
  have hang : c₁.GetSpline .base_angular = c₂.GetSpline .base_angular := by
    unfold Composite.GetSpline
    rw [find_zrel c₁ c₂ h _ (fun e he => VarId.noConfusion he)]
  have hsched : ∀ i, c₁.GetSchedule (.eeSchedule i) = c₂.GetSchedule (.eeSchedule i) := by
    intro i
    unfold Composite.GetSchedule
    rw [find_zrel c₁ c₂ h _ (fun e he => VarId.noConfusion he)]
  have hxy : ∀ i, c₁.GetSpline (.eeMotionXY i) = c₂.GetSpline (.eeMotionXY i) := by
    intro i
    unfold Composite.GetSpline
    rw [find_zrel c₁ c₂ h _ (fun e he => VarId.noConfusion he)]
  have hfrc : ∀ i, c₁.GetSpline (.eeForce i) = c₂.GetSpline (.eeForce i) := by
    intro i
    unfold Composite.GetSpline
    rw [find_zrel c₁ c₂ h _ (fun e he => VarId.noConfusion he)]
  unfold stateAt
  rw [hlin, hang]
  simp only [hsched, hxy, hfrc]

lemma buildLoop_zrel (n : ℕ) (c₁ c₂ : Composite) (dt Teps : ℚ)
    (h : c₁.ZMotionOnlyDiff c₂) :
    ∀ t, buildLoop n c₁ dt Teps t = buildLoop n c₂ dt Teps t := by
  refine buildLoop.induct n c₁ dt Teps
    (motive := fun t => buildLoop n c₁ dt Teps t = buildLoop n c₂ dt Teps t) ?_ ?_
  · intro t hcond ih
    unfold buildLoop
    rw [dif_pos hcond, dif_pos hcond, stateAt_zrel n c₁ c₂ t h, ih]
  · intro t hcond
    unfold buildLoop
    rw [dif_neg hcond, dif_neg hcond]

/-- C10: the z-motion blocks `BuildVariables` registers are never read by
`BuildTrajectory`: two composites whose contents differ only in the values of
the z-motion blocks yield the identical trajectory. -/
theorem C10_z_blocks_not_read (eeCount : ℕ) (c₁ c₂ : Composite) (dt : ℚ)
    (h : c₁.ZMotionOnlyDiff c₂) :
    buildTrajectory eeCount c₁ dt = buildTrajectory eeCount c₂ dt := by
  unfold buildTrajectory
  have hs : c₁.GetSchedule (.eeSchedule 0) = c₂.GetSchedule (.eeSchedule 0) := by
    unfold Composite.GetSchedule
    rw [find_zrel c₁ c₂ h _ (fun e he => VarId.noConfusion he)]
  rw [hs]
  cases c₂.GetSchedule (.eeSchedule 0) with
  | none => rfl
  | some cs =>
    simp only [Option.bind_eq_bind, Option.some_bind]
    exact buildLoop_zrel eeCount c₁ c₂ dt (cs.GetTotalTime + tol) h 0

/-- The sample composite with a different payload in the z-motion block. -/
def zTweakedComposite : Composite :=
  ⟨[(.base_linear, .spline (constSpline 1), true),
    (.base_angular, .spline (constSpline 1), true),
    (.eeSchedule 0, .schedule (oneStanceSchedule 1), false),
    (.eeMotionXY 0, .spline (constSpline 1), true),
    (.eeMotionZ 0, .spline (constSpline 5), true),
    (.eeForce 0, .spline (constSpline 1), true)]⟩

/-- Witness for C10: the sample composite and its z-tweaked variant are
different composites yet build the identical trajectory. -/
theorem C10_z_blocks_not_read_witness :
    sampleComposite 1 ≠ zTweakedComposite
    ∧ (sampleComposite 1).ZMotionOnlyDiff zTweakedComposite
    ∧ buildTrajectory 1 (sampleComposite 1) (1/10)
        = buildTrajectory 1 zTweakedComposite (1/10) := by
  have hrel : (sampleComposite 1).ZMotionOnlyDiff zTweakedComposite := by
    unfold Composite.ZMotionOnlyDiff sampleComposite zTweakedComposite
    refine List.Forall₂.cons (Or.inl rfl) ?_
    refine List.Forall₂.cons (Or.inl rfl) ?_
    refine List.Forall₂.cons (Or.inl rfl) ?_
    refine List.Forall₂.cons (Or.inl rfl) ?_
    refine List.Forall₂.cons (Or.inr ⟨rfl, ⟨0, rfl⟩, rfl⟩) ?_
    refine List.Forall₂.cons (Or.inl rfl) ?_
    exact List.Forall₂.nil
  exact ⟨by decide, hrel, C10_z_blocks_not_read 1 _ _ (1/10) hrel⟩

end Towr
